import Mathlib

/-!
Verification development for the rboxer repository: a shallow embedding of
the RouteBoxer grid-overlay-and-merge algorithm (src/unnamed/part_001,
bundled from src/src/index.js and src/src/routeboxer.js) together with the
exact-real embedding of the rhumb-line navigation primitives.

Modelling conventions.

* Numbers inside the core algorithm are the elements of an arbitrary linear
  ordered field `α`; the program's transcendental primitives
  (`rhumbDestinationPoint`, `rhumbBearingTo`, `Math.cos`, `Number.toRad`) are
  collected in a `Nav α` record, so every theorem about the core holds for
  the real instantiation `realNav` (defined below over `ℝ` from the same
  source) and can be evaluated on computable instantiations over `ℚ`.
* JavaScript arrays are Lean lists.  Reading `a[i]` yields an `Option`
  (`none` models `undefined`); writing past the end of an array extends it
  the way a JavaScript assignment does; writing at a negative index creates
  a non-index property that no later read of the program observes, so it is
  dropped; writing `a[i][j]` when `a[i]` is `undefined` throws `TypeError`.
* Thrown exceptions are modelled with `Except JSError`; the mutable fields
  of the shared `L.RouteBoxer` object are threaded as an `RBState` record.
* The `for` loops of `buildGrid_` can fail to terminate for a degenerate
  destination function (the spec flags this in its section 9), so they take
  explicit fuel; the bounded loops (hinted scans, fill loops) get fuel that
  is computed from their loop bounds and is provably sufficient, keeping
  every definition structurally recursive and executable.
* `NaN`-valued coordinates are modelled by `Option α` at the `mkBox`
  boundary (`none` plays the role of a non-numeric value, exactly the
  values on which JavaScript's `isNaN` is true for this program's inputs).
-/

set_option maxRecDepth 8000
set_option maxHeartbeats 1000000
set_option linter.unusedSectionVars false
set_option linter.unusedVariables false

attribute [local semireducible] Rat.add Rat.mul Rat.inv Rat.sub

deriving instance DecidableEq for Except

namespace Rboxer

/-- The JavaScript errors this program can throw. -/
inductive JSError where
  /-- property access on `undefined`/`null` -/
  | typeError
  /-- the `L.LatLng` constructor's `Invalid LatLng object` throw -/
  | invalidLatLng
  /-- fuel exhaustion, modelling a non-terminating grid-growth loop -/
  | fuel
deriving DecidableEq, Repr

/-- A constructed `L.LatLng` object: its `lat` and `lng` fields. -/
structure LatLng (α : Type) where
  lat : α
  lng : α
deriving DecidableEq, Repr

/-- An `L.LatLngBounds` object with both corners present, as produced by
`getCellBounds_` and mutated by `extend`. -/
structure LLBounds (α : Type) where
  sw : LatLng α
  ne : LatLng α
deriving DecidableEq, Repr

variable {α : Type} [LinearOrderedField α]

/-- The `LatLngBounds.extend` with a `LatLng` argument, on bounds whose corners
exist: `sw.lat = Math.min(sw2.lat, sw.lat); ...; ne.lat = Math.max(ne2.lat,
ne.lat); ...` with `sw2 = ne2 = p` (part_001 lines 542-572). -/
def LLBounds.extendPt (b : LLBounds α) (p : LatLng α) : LLBounds α :=
  ⟨⟨min p.lat b.sw.lat, min p.lng b.sw.lng⟩,
   ⟨max p.lat b.ne.lat, max p.lng b.ne.lng⟩⟩

/-- The `new L.LatLngBounds(c1, c2)`: the constructor extends empty bounds with
`c1` (making both corners `c1`) and then with `c2`, so the corners are the
componentwise min/max written by `extend`. -/
def boundsOfCorners (c1 c2 : LatLng α) : LLBounds α :=
  ⟨⟨min c2.lat c1.lat, min c2.lng c1.lng⟩,
   ⟨max c2.lat c1.lat, max c2.lng c1.lng⟩⟩

/-- The `LatLngBounds.extend` on bounds that may still be empty (`none`), as
used by `buildGrid_` when accumulating the route's bounding box. -/
def extend0 (b : Option (LatLng α × LatLng α)) (p : LatLng α) :
    Option (LatLng α × LatLng α) :=
  match b with
  | none => some (⟨p.lat, p.lng⟩, ⟨p.lat, p.lng⟩)
  | some (sw, ne) =>
      some (⟨min p.lat sw.lat, min p.lng sw.lng⟩,
            ⟨max p.lat ne.lat, max p.lng ne.lng⟩)

/-- Reading `l[i]` with a JavaScript (integer, possibly negative) index:
`none` models `undefined`. -/
def geti (l : List α') (i : ℤ) : Option α' :=
  if 0 ≤ i then l[i.toNat]? else none

/-- The `L.LatLng` constructor (part_001 lines 923-941): it throws
`Invalid LatLng object` iff `isNaN` holds of an argument; a non-numeric
(`NaN`/`undefined`) argument is modelled by `none`. -/
def mkLatLng (la ln : Option α) : Except JSError (LatLng α) :=
  match la, ln with
  | some a, some b => .ok ⟨a, b⟩
  | _, _ => .error .invalidLatLng

/-- The navigation primitives the core calls: `rhumbDestinationPoint`
(returning `null`, i.e. `none`, when its result would be `NaN`),
`rhumbBearingTo`, `Number.prototype.toRad` and `Math.cos`. -/
structure Nav (α : Type) where
  dest : LatLng α → α → α → Option (LatLng α)
  bearingTo : LatLng α → LatLng α → α
  degToRad : α → α
  cos : α → α

/-- The `p.rhumbDestinationPoint(brng, dist)` followed by a field access, which
throws a `TypeError` when the method returned `null`. -/
def destPt (nav : Nav α) (p : LatLng α) (brng dist : α) :
    Except JSError (LatLng α) :=
  match nav.dest p brng dist with
  | some q => .ok q
  | none => .error .typeError

/-- The body of the two appending grid-growth loops of `buildGrid_`
(`for (i = 2; latGrid_[i-2] < bound; i++) latGrid_.push(dest(brng, range*i).proj)`,
and the same for `lngGrid_` with bearing 90): the loop continues while the
second-to-last element (index `i-2`; comparison with `undefined` is false)
is below the bounding-box edge. -/
def growTail (nav : Nav α) (c : LatLng α) (range lim brng : α)
    (proj : LatLng α → α) : ℕ → ℕ → List α → Except JSError (List α)
  | 0, _, _ => .error .fuel
  | fuel + 1, i, acc =>
    match geti acc ((i : ℤ) - 2) with
    | some a =>
      if a < lim then do
        let q ← destPt nav c brng (range * (i : α))
        growTail nav c range lim brng proj fuel (i + 1) (acc ++ [proj q])
      else .ok acc
    | none => .ok acc

/-- The body of the two prepending grid-growth loops of `buildGrid_`
(`for (i = 1; latGrid_[1] > bound; i++) latGrid_.unshift(dest(brng, range*i).proj)`,
and the same for `lngGrid_` with bearing 270). -/
def growHead (nav : Nav α) (c : LatLng α) (range lim brng : α)
    (proj : LatLng α → α) : ℕ → ℕ → List α → Except JSError (List α)
  | 0, _, _ => .error .fuel
  | fuel + 1, i, acc =>
    match geti acc 1 with
    | some a =>
      if lim < a then do
        let q ← destPt nav c brng (range * (i : α))
        growHead nav c range lim brng proj fuel (i + 1) (proj q :: acc)
      else .ok acc
    | none => .ok acc

/-- The `buildGrid_(vertices, range)` (part_001 lines 1155-1199): accumulate the
route's bounding box, take its center (a `TypeError` on an empty route, from
reading a field of `undefined`), grow the latitude grid north then south and
the longitude grid east then west, and allocate the all-false mark grid with
`lngGrid_.length` columns of `latGrid_.length` entries. -/
def buildGrid (nav : Nav α) (fuel : ℕ) (vertices : List (LatLng α))
    (range : α) : Except JSError (List α × List α × List (List Bool)) := do
  match vertices.foldl extend0 none with
  | none => .error .typeError
  | some (sw, ne) => do
    let c : LatLng α := ⟨(sw.lat + ne.lat) / 2, (sw.lng + ne.lng) / 2⟩
    let d1 ← destPt nav c 0 range
    let latGrid1 ← growTail nav c range ne.lat 0 LatLng.lat fuel 2 [c.lat, d1.lat]
    let latGrid ← growHead nav c range sw.lat 180 LatLng.lat fuel 1 latGrid1
    let e1 ← destPt nav c 90 range
    let lngGrid1 ← growTail nav c range ne.lng 90 LatLng.lng fuel 2 [c.lng, e1.lng]
    let lngGrid ← growHead nav c range sw.lng 270 LatLng.lng fuel 1 lngGrid1
    .ok (latGrid, lngGrid,
         List.replicate lngGrid.length (List.replicate latGrid.length false))

/-- The `getCellCoords_(latlng)` (part_001 lines 1240-1244): brute-force scans
`for (x = 0; lngGrid_[x] < latlng.lng; x++)` and the same for latitude; each
scan stops at the first entry that is not below the coordinate (comparison
with `undefined` is false), i.e. after the longest strictly-below prefix. -/
def getCellCoords (latG lngG : List α) (p : LatLng α) : ℤ × ℤ :=
  (((lngG.takeWhile (fun a => decide (a < p.lng))).length : ℤ) - 1,
   ((latG.takeWhile (fun a => decide (a < p.lat))).length : ℤ) - 1)

/-- One upward hinted scan `for (x = hint; grid[x+1] < v; x++)`.  The loop
advances only while position `x+1` exists, so `l.length + 1` steps always
suffice and the fuel of the wrapper below is not observable. -/
def scanUpGo (l : List α) (v : α) : ℕ → ℤ → ℤ
  | 0, i => i
  | fuel + 1, i =>
    match geti l (i + 1) with
    | some a => if a < v then scanUpGo l v fuel (i + 1) else i
    | none => i

def scanUp (l : List α) (v : α) (i : ℤ) : ℤ := scanUpGo l v (l.length + 1) i

/-- One downward hinted scan `for (x = hint; grid[x] > v; x--)`.  The loop
continues only from a valid position, so it runs at most `l.length + 1`
steps from any start. -/
def scanDownGo (l : List α) (v : α) : ℕ → ℤ → ℤ
  | 0, i => i
  | fuel + 1, i =>
    match geti l i with
    | some a => if v < a then scanDownGo l v fuel (i - 1) else i
    | none => i

def scanDown (l : List α) (v : α) (i : ℤ) : ℤ := scanDownGo l v (l.length + 1) i

/-- The `getGridCoordsFromHint_(latlng, hintlatlng, hint)` (part_001 lines
1255-1268): hinted monotone search for the cell of `p`, scanning up when the
coordinate increased and down otherwise. -/
def getGridCoordsFromHint (latG lngG : List α) (p hintP : LatLng α)
    (hintXY : ℤ × ℤ) : ℤ × ℤ :=
  ((if hintP.lng < p.lng then scanUp lngG p.lng hintXY.1
    else scanDown lngG p.lng hintXY.1),
   (if hintP.lat < p.lat then scanUp latG p.lat hintXY.2
    else scanDown latG p.lat hintXY.2))

/-- Writing `col[y] = 1` into one grid column with JavaScript array
semantics: a negative index creates a non-index property that no read of
this program observes (dropped); an index past the end extends the array,
the skipped holes reading back as `undefined` (falsy, here `false`). -/
def jsSetCol (col : List Bool) (y : ℤ) : List Bool :=
  if y < 0 then col
  else if y.toNat < col.length then col.set y.toNat true
  else col ++ List.replicate (y.toNat - col.length) false ++ [true]

/-- Writing `grid_[x][y] = 1`: a `TypeError` when column `x` does not exist
(`undefined[y]` throws), otherwise a column update. -/
def jsSetGrid (g : List (List Bool)) (x y : ℤ) :
    Except JSError (List (List Bool)) :=
  match geti g x with
  | some col => .ok (g.set x.toNat (jsSetCol col y))
  | none => .error .typeError

/-- Reading `grid_[x][y]` at a position whose column exists; missing entries
(holes, out-of-range rows) are `undefined`, which is falsy. -/
def gridGet (g : List (List Bool)) (x y : ℤ) : Bool :=
  (((geti g x).bind fun col => geti col y)).getD false

/-- The `markCell_(cell)` (part_001 lines 1382-1395): set the cell and its 8
neighbours, in source order. -/
def markCell (g : List (List Bool)) (cell : ℤ × ℤ) :
    Except JSError (List (List Bool)) := do
  let x := cell.1
  let y := cell.2
  let g ← jsSetGrid g (x - 1) (y - 1)
  let g ← jsSetGrid g x (y - 1)
  let g ← jsSetGrid g (x + 1) (y - 1)
  let g ← jsSetGrid g (x - 1) y
  let g ← jsSetGrid g x y
  let g ← jsSetGrid g (x + 1) y
  let g ← jsSetGrid g (x - 1) (y + 1)
  let g ← jsSetGrid g x (y + 1)
  let g ← jsSetGrid g (x + 1) (y + 1)
  .ok g

/-- The ascending branch of `fillInGridSquares_`: `for (x = startx; x <=
endx; x++) markCell_([x, y])`.  The fuel `(endx - startx).toNat + 2` covers
every iteration plus the final test. -/
def fillUpGo (y : ℤ) : List (List Bool) → ℤ → ℤ → ℕ →
    Except JSError (List (List Bool))
  | _, _, _, 0 => .error .fuel
  | g, x, endx, fuel + 1 =>
    if x ≤ endx then do
      let g' ← markCell g (x, y)
      fillUpGo y g' (x + 1) endx fuel
    else .ok g

/-- The descending branch of `fillInGridSquares_`: `for (x = startx; x >=
endx; x--) markCell_([x, y])`. -/
def fillDownGo (y : ℤ) : List (List Bool) → ℤ → ℤ → ℕ →
    Except JSError (List (List Bool))
  | _, _, _, 0 => .error .fuel
  | g, x, endx, fuel + 1 =>
    if endx ≤ x then do
      let g' ← markCell g (x, y)
      fillDownGo y g' (x - 1) endx fuel
    else .ok g

/-- The `fillInGridSquares_(startx, endx, y)` (part_001 lines 1365-1376). -/
def fillInGridSquares (g : List (List Bool)) (startx endx y : ℤ) :
    Except JSError (List (List Bool)) :=
  if startx < endx then fillUpGo y g startx endx ((endx - startx).toNat + 2)
  else fillDownGo y g startx endx ((startx - endx).toNat + 2)

/-- The `getGridIntersect_(start, brng, gridLineLat)` (part_001 lines 1352-1355):
`dest(start, brng, R * ((gridLineLat.toRad() - start.lat.toRad()) /
Math.cos(brng.toRad())))` with `R = 6371`. -/
def getGridIntersect (nav : Nav α) (start : LatLng α) (brng gridLineLat : α) :
    Option (LatLng α) :=
  nav.dest start brng
    (6371 * ((nav.degToRad gridLineLat - nav.degToRad start.lat) /
             nav.cos (nav.degToRad brng)))

/-- The northbound loop of `getGridIntersects_` (`end.lat > start.lat`):
`for (i = startXY[1]+1; i <= endXY[1]; i++)` crossing one latitude grid line
per step, followed by the closing `fillInGridSquares_(hint, endXY[0], i-1)`.
The fuel covers every iteration plus the final test. -/
def ggiNorthGo (nav : Nav α) (latG lngG : List α) (start : LatLng α)
    (brng : α) (endXY : ℤ × ℤ) : List (List Bool) → LatLng α → ℤ × ℤ → ℤ →
    ℕ → Except JSError (List (List Bool))
  | _, _, _, _, 0 => .error .fuel
  | g, hintP, hintXY, i, fuel + 1 =>
    if i ≤ endXY.2 then
      match geti latG i with
      | none => .error .typeError
      | some gl =>
        match getGridIntersect nav start brng gl with
        | none => .error .typeError
        | some edgeP => do
          let edgeXY := getGridCoordsFromHint latG lngG edgeP hintP hintXY
          let g' ← fillInGridSquares g hintXY.1 edgeXY.1 (i - 1)
          ggiNorthGo nav latG lngG start brng endXY g' edgeP edgeXY (i + 1) fuel
    else fillInGridSquares g hintXY.1 endXY.1 (i - 1)

/-- The southbound loop of `getGridIntersects_` (`end.lat <= start.lat`):
`for (i = startXY[1]; i > endXY[1]; i--)`, followed by the closing
`fillInGridSquares_(hint, endXY[0], i)`. -/
def ggiSouthGo (nav : Nav α) (latG lngG : List α) (start : LatLng α)
    (brng : α) (endXY : ℤ × ℤ) : List (List Bool) → LatLng α → ℤ × ℤ → ℤ →
    ℕ → Except JSError (List (List Bool))
  | _, _, _, _, 0 => .error .fuel
  | g, hintP, hintXY, i, fuel + 1 =>
    if endXY.2 < i then
      match geti latG i with
      | none => .error .typeError
      | some gl =>
        match getGridIntersect nav start brng gl with
        | none => .error .typeError
        | some edgeP => do
          let edgeXY := getGridCoordsFromHint latG lngG edgeP hintP hintXY
          let g' ← fillInGridSquares g hintXY.1 edgeXY.1 i
          ggiSouthGo nav latG lngG start brng endXY g' edgeP edgeXY (i - 1) fuel
    else fillInGridSquares g hintXY.1 endXY.1 i

/-- The `getGridIntersects_(start, end, startXY, endXY)` (part_001 lines
1293-1339): take the rhumb bearing of the segment, then walk the latitude
grid lines between the two cells, north- or southbound. -/
def getGridIntersects (nav : Nav α) (latG lngG : List α)
    (g : List (List Bool)) (start endP : LatLng α) (startXY endXY : ℤ × ℤ) :
    Except JSError (List (List Bool)) :=
  let brng := nav.bearingTo start endP
  if start.lat < endP.lat then
    ggiNorthGo nav latG lngG start brng endXY g start startXY (startXY.2 + 1)
      ((endXY.2 - startXY.2).toNat + 2)
  else
    ggiSouthGo nav latG lngG start brng endXY g start startXY startXY.2
      ((startXY.2 - endXY.2).toNat + 2)

/-- The vertex loop of `findIntersectingCells_`: classify the transition
from the previous vertex's cell (same cell / edge-adjacent / otherwise) and
mark accordingly. -/
def fiLoop (nav : Nav α) (latG lngG : List α) :
    List (List Bool) → LatLng α → ℤ × ℤ → List (LatLng α) →
    Except JSError (List (List Bool))
  | g, _, _, [] => .ok g
  | g, prevP, prevXY, p :: rest => do
    let gridXY := getGridCoordsFromHint latG lngG p prevP prevXY
    let g' ←
      if gridXY = prevXY then .ok g
      else if ((prevXY.1 - gridXY.1).natAbs = 1 ∧ prevXY.2 = gridXY.2) ∨
              (prevXY.1 = gridXY.1 ∧ (prevXY.2 - gridXY.2).natAbs = 1) then
        markCell g gridXY
      else getGridIntersects nav latG lngG g prevP p prevXY gridXY
    fiLoop nav latG lngG g' p gridXY rest

/-- The `findIntersectingCells_(vertices)` (part_001 lines 1207-1235): locate
and mark the first vertex's cell by brute force, then walk the remaining
vertices with the hinted search. -/
def findIntersectingCells (nav : Nav α) (latG lngG : List α)
    (g : List (List Bool)) (vertices : List (LatLng α)) :
    Except JSError (List (List Bool)) :=
  match vertices with
  | [] => .error .typeError
  | v0 :: rest => do
    let hintXY := getCellCoords latG lngG v0
    let g' ← markCell g hintXY
    fiLoop nav latG lngG g' v0 hintXY rest

/-- The `getCellBounds_(cell)` (part_001 lines 1516-1521): bounds from the two
corner `LatLng`s; a grid index past the end yields `undefined`, and the
`LatLng` constructor then throws. -/
def getCellBounds (latG lngG : List α) (cell : ℤ × ℤ) :
    Except JSError (LLBounds α) := do
  let c1 ← mkLatLng (geti latG cell.2) (geti lngG cell.1)
  let c2 ← mkLatLng (geti latG (cell.2 + 1)) (geti lngG (cell.1 + 1))
  .ok (boundsOfCorners c1 c2)

/-- The linear scan of `mergeBoxesY_` (part_001 lines 1495-1507): find the
first box whose north edge abuts the new box's south edge over the same
longitude span, extend it in place, otherwise append. -/
def mergeBoxesYGo : List (LLBounds α) → LLBounds α → List (LLBounds α)
  | [], b => [b]
  | bx :: rest, b =>
    if bx.ne.lat = b.sw.lat ∧ bx.sw.lng = b.sw.lng ∧ bx.ne.lng = b.ne.lng then
      bx.extendPt b.ne :: rest
    else bx :: mergeBoxesYGo rest b

/-- The `mergeBoxesY_(box)` including its `box !== null` guard. -/
def mergeBoxesY (boxes : List (LLBounds α)) (cur : Option (LLBounds α)) :
    List (LLBounds α) :=
  match cur with
  | none => boxes
  | some b => mergeBoxesYGo boxes b

/-- The linear scan of `mergeBoxesX_` (part_001 lines 1475-1487): the
symmetric condition on the latitude span and abutting east/west edges. -/
def mergeBoxesXGo : List (LLBounds α) → LLBounds α → List (LLBounds α)
  | [], b => [b]
  | bx :: rest, b =>
    if bx.ne.lng = b.sw.lng ∧ bx.sw.lat = b.sw.lat ∧ bx.ne.lat = b.ne.lat then
      bx.extendPt b.ne :: rest
    else bx :: mergeBoxesXGo rest b

/-- The `mergeBoxesX_(box)` including its `box !== null` guard. -/
def mergeBoxesX (boxes : List (LLBounds α)) (cur : Option (LLBounds α)) :
    List (LLBounds α) :=
  match cur with
  | none => boxes
  | some b => mergeBoxesXGo boxes b

/-- The inner column loop of the row-at-a-time traversal of
`mergeIntersectingCells_`: merge horizontally contiguous marked cells into
`cur`, flushing through `mergeBoxesY_` at each unmarked cell. -/
def rowScan (latG lngG : List α) (g : List (List Bool)) (y : ℕ) :
    List ℕ → Option (LLBounds α) → List (LLBounds α) →
    Except JSError (Option (LLBounds α) × List (LLBounds α))
  | [], cur, acc => .ok (cur, acc)
  | x :: xs, cur, acc =>
    if gridGet g x y then do
      let b ← getCellBounds latG lngG (x, y)
      let cur' := match cur with
        | some c => some (c.extendPt b.ne)
        | none => some b
      rowScan latG lngG g y xs cur' acc
    else rowScan latG lngG g y xs none (mergeBoxesY acc cur)

/-- The row-at-a-time traversal of `mergeIntersectingCells_` (its first
half), producing `boxesY_`: after each row the current box is flushed
through `mergeBoxesY_`. -/
def rowPass (latG lngG : List α) (g : List (List Bool)) (numCols : ℕ) :
    List ℕ → List (LLBounds α) → Except JSError (List (LLBounds α))
  | [], acc => .ok acc
  | y :: ys, acc => do
    let r ← rowScan latG lngG g y (List.range numCols) none acc
    rowPass latG lngG g numCols ys (mergeBoxesY r.2 r.1)

/-- The inner row loop of the column-at-a-time traversal of
`mergeIntersectingCells_`: merge vertically contiguous marked cells,
flushing through `mergeBoxesX_`. -/
def colScan (latG lngG : List α) (g : List (List Bool)) (x : ℕ) :
    List ℕ → Option (LLBounds α) → List (LLBounds α) →
    Except JSError (Option (LLBounds α) × List (LLBounds α))
  | [], cur, acc => .ok (cur, acc)
  | y :: ys, cur, acc =>
    if gridGet g x y then do
      let b ← getCellBounds latG lngG (x, y)
      let cur' := match cur with
        | some c => some (c.extendPt b.ne)
        | none => some b
      colScan latG lngG g x ys cur' acc
    else colScan latG lngG g x ys none (mergeBoxesX acc cur)

/-- The column-at-a-time traversal of `mergeIntersectingCells_` (its second
half), producing `boxesX_`. -/
def colPass (latG lngG : List α) (g : List (List Bool)) (numRows : ℕ) :
    List ℕ → List (LLBounds α) → Except JSError (List (LLBounds α))
  | [], acc => .ok acc
  | x :: xs, acc => do
    let r ← colScan latG lngG g x (List.range numRows) none acc
    colPass latG lngG g numRows xs (mergeBoxesX r.2 r.1)

/-- The `mergeIntersectingCells_()` (part_001 lines 1410-1466): the row-first
sweep filling `boxesY_`, then the column-first sweep filling `boxesX_`.
Both loops bound the row index by `grid_[0].length` (a `TypeError` when the
grid has no columns) and the column index by `grid_.length`. -/
def mergeIntersectingCells (latG lngG : List α) (g : List (List Bool)) :
    Except JSError (List (LLBounds α) × List (LLBounds α)) := do
  match geti g 0 with
  | none => .error .typeError
  | some col0 => do
    let boxesY ← rowPass latG lngG g g.length (List.range col0.length) []
    let boxesX ← colPass latG lngG g col0.length (List.range g.length) []
    .ok (boxesY, boxesX)

/-- The mutable fields of the shared `L.RouteBoxer` object (part_001 lines
1080-1087).  `R` is a constant (6371) that no method writes, so it is not
part of the threaded state. -/
structure RBState (α : Type) where
  grid_ : Option (List (List Bool))
  latGrid_ : List α
  lngGrid_ : List α
  boxesX_ : List (LLBounds α)
  boxesY_ : List (LLBounds α)
deriving DecidableEq, Repr

/-- The `RouteBoxer.box(path, range)` (part_001 lines 1100-1137): reset every
mutable field, build the grid, mark the intersected cells, merge, store the
results in the instance fields, and return the smaller merged set
(`boxesX_.length <= boxesY_.length ? boxesX_ : boxesY_`).  Every field of
the incoming state is overwritten before it could be read, which is what
claim C8 is about. -/
def box (nav : Nav α) (fuel : ℕ) (s : RBState α) (path : List (LatLng α))
    (range : α) : Except JSError (RBState α × List (LLBounds α)) := do
  let vertices := path
  let r ← buildGrid nav fuel vertices range
  let g1 ← findIntersectingCells nav r.1 r.2.1 r.2.2 vertices
  let bs ← mergeIntersectingCells r.1 r.2.1 g1
  let s' : RBState α :=
    { s with grid_ := some g1, latGrid_ := r.1, lngGrid_ := r.2.1,
             boxesX_ := bs.2, boxesY_ := bs.1 }
  .ok (s', if bs.2.length ≤ bs.1.length then bs.2 else bs.1)

/-- The `mkBox(pts, dis)` (part_001 lines 1596-1608, the bundled form of
src/src/index.js): with fewer than 2 points return `[]`; otherwise convert
each pair through the `LatLng` constructor, call `RouteBoxer.box` with the
distance argument passed through unchanged, and flatten the returned bounds
to corner pairs. -/
def mkBox (nav : Nav α) (fuel : ℕ) (s : RBState α)
    (pts : List (Option α × Option α)) (dis : α) :
    Except JSError (RBState α × List ((α × α) × (α × α))) :=
  if 2 ≤ pts.length then do
    let lls ← pts.mapM (fun pt => mkLatLng pt.1 pt.2)
    let r ← box nav fuel s lls dis
    .ok (r.1, r.2.map (fun b => ((b.sw.lat, b.sw.lng), (b.ne.lat, b.ne.lng))))
  else .ok (s, [])

/-- Modelled from the spec (section 6, unit contract): "the core algorithm
(grid building, rhumb navigation) operates in kilometers", so this is the
core box computation run at an explicitly given range in kilometers, with
the same array-to-point conversion and box flattening as the public
wrapper.  It is the comparator for the refinement claim C1. -/
def coreRun (nav : Nav α) (fuel : ℕ) (s : RBState α)
    (pts : List (Option α × Option α)) (rangeKm : α) :
    Except JSError (RBState α × List ((α × α) × (α × α))) :=
  if 2 ≤ pts.length then do
    let lls ← pts.mapM (fun pt => mkLatLng pt.1 pt.2)
    let r ← box nav fuel s lls rangeKm
    .ok (r.1, r.2.map (fun b => ((b.sw.lat, b.sw.lng), (b.ne.lat, b.ne.lng))))
  else .ok (s, [])

/-- The `mkBox` with the caller's points array threaded as explicit state, for
the frame claim C9.  The translation of `mkBox` performs no write whose
target is the caller's array (the `LatLng` constructor copies `pt[0]` and
`pt[1]`; `box` reads only the fresh `LatLng` objects), so the threaded
array component is the array as received. -/
def mkBoxFrame (nav : Nav α) (fuel : ℕ) (s : RBState α)
    (pts : List (Option α × Option α)) (dis : α) :
    Except JSError ((RBState α × List (Option α × Option α)) ×
      List ((α × α) × (α × α))) :=
  if 2 ≤ pts.length then do
    let lls ← pts.mapM (fun pt => mkLatLng pt.1 pt.2)
    let r ← box nav fuel s lls dis
    .ok ((r.1, pts),
         r.2.map (fun b => ((b.sw.lat, b.sw.lng), (b.ne.lat, b.ne.lng))))
  else .ok ((s, pts), [])

/-- The box invariant of claim C7: the southwest corner is componentwise
below the northeast corner. -/
def boxInv (b : LLBounds α) : Prop :=
  b.sw.lat ≤ b.ne.lat ∧ b.sw.lng ≤ b.ne.lng

/-- The length of grid column `j` (0 when the column does not exist). -/
def cLen (g : List (List Bool)) (j : ℤ) : ℕ := ((geti g j).getD []).length

/-- What every marking step preserves: the number of grid columns, the
length of each column (columns only grow), and every cell already set. -/
def Pres (g g' : List (List Bool)) : Prop :=
  g'.length = g.length ∧ (∀ j : ℤ, cLen g j ≤ cLen g' j) ∧
  ∀ a b : ℤ, gridGet g a b = true → gridGet g' a b = true

/-! ### Computable instantiation for concrete runs

The structural claims below are proved for every `Nav α`; the following
small navigation model over `ℚ` instantiates them on concrete inputs.  Its
`dest` moves due north/east/south/west for the four cardinal bearings used
by `buildGrid_` and diagonally otherwise, its bearings are all 45°, and its
`degToRad`/`cos` make `getGridIntersect_`'s distance come out as the plain
latitude difference, so a 45° segment crosses a grid line exactly on the
diagonal. -/

/-- A computable destination function over `ℚ` for concrete runs. -/
def flatDest (p : LatLng ℚ) (b d : ℚ) : Option (LatLng ℚ) :=
  if b = 0 then some ⟨p.lat + d, p.lng⟩
  else if b = 90 then some ⟨p.lat, p.lng + d⟩
  else if b = 180 then some ⟨p.lat - d, p.lng⟩
  else if b = 270 then some ⟨p.lat, p.lng - d⟩
  else some ⟨p.lat + d, p.lng + d⟩

/-- A computable navigation model over `ℚ` for concrete runs. -/
def testNav : Nav ℚ :=
  { dest := flatDest
    bearingTo := fun _ _ => 45
    degToRad := fun x => x / 6371
    cos := fun _ => 1 }

/-- The initial state of the shared `RouteBoxer` object. -/
def st0 : RBState ℚ := ⟨none, [], [], [], []⟩

/-- A concrete two-vertex route in diagonally adjacent grid cells. -/
def c2lls : List (LatLng ℚ) := [⟨3/2, 3/2⟩, ⟨5/2, 5/2⟩]

/-- The same route as a raw coordinate-pair array for `mkBox`. -/
def ptsQ : List (Option ℚ × Option ℚ) :=
  [(some (3/2), some (3/2)), (some (5/2), some (5/2))]

/-- A coordinate-pair array containing a non-numeric (NaN) longitude. -/
def ptsBad : List (Option ℚ × Option ℚ) := [(some 1, none), (some 2, some 3)]

/-- The marked grid produced by the concrete runs below (both ranges mark
the same cells; only the grid-line values differ). -/
def gridLit : List (List Bool) :=
  [[true, true, true, true, false],
   [true, true, true, true, false],
   [true, true, true, true, false],
   [false, true, true, true, false],
   [false, false, false, false, false]]

/-- The row-first merged list (`boxesY_`) of the range-1 run. -/
def boxesYLit : List (LLBounds ℚ) := [⟨⟨0, 0⟩, ⟨1, 3⟩⟩, ⟨⟨1, 0⟩, ⟨4, 4⟩⟩]

/-- The column-first merged list (`boxesX_`) of the range-1 run. -/
def boxesXLit : List (LLBounds ℚ) := [⟨⟨0, 0⟩, ⟨4, 3⟩⟩, ⟨⟨1, 3⟩, ⟨4, 4⟩⟩]

/-- The final state of the range-1 run. -/
def SLit : RBState ℚ :=
  ⟨some gridLit, [0, 1, 2, 3, 4], [0, 1, 2, 3, 4], boxesXLit, boxesYLit⟩

/-- The flattened box list `mkBox` returns for the range-1 run. -/
def RLit : List ((ℚ × ℚ) × (ℚ × ℚ)) := [((0, 0), (4, 3)), ((1, 3), (4, 4))]

/-- The row-first merged list of the range-1000 run. -/
def boxesY1000 : List (LLBounds ℚ) :=
  [⟨⟨-1998, -1998⟩, ⟨-998, 1002⟩⟩, ⟨⟨-998, -1998⟩, ⟨2002, 2002⟩⟩]

/-- The column-first merged list of the range-1000 run. -/
def boxesX1000 : List (LLBounds ℚ) :=
  [⟨⟨-1998, -1998⟩, ⟨2002, 1002⟩⟩, ⟨⟨-998, 1002⟩, ⟨2002, 2002⟩⟩]

/-- The final state of the range-1000 run. -/
def S1000 : RBState ℚ :=
  ⟨some gridLit, [-1998, -998, 2, 1002, 2002], [-1998, -998, 2, 1002, 2002],
   boxesX1000, boxesY1000⟩

/-- The flattened box list `mkBox` returns for the range-1000 run. -/
def R1000 : List ((ℚ × ℚ) × (ℚ × ℚ)) :=
  [((-1998, -1998), (2002, 1002)), ((-998, 1002), (2002, 2002))]

/-! ### The rhumb-navigation primitives over exact reals

`rhumbDestinationPoint` and `rhumbBearingTo` (part_001 lines 1528-1560) are
floating-point transcendental code; their exact-real embedding below is the
instantiation the program runs the core with.  Real arithmetic has no `NaN`,
so the final `isNaN` guard of `rhumbDestinationPoint` (which returns `null`
when the float computation produced `NaN`) never fires here and the computed
point is returned. -/

noncomputable section

/-- The `Number.prototype.toRad`. -/
def toRad (x : ℝ) : ℝ := x * Real.pi / 180

/-- The `Number.prototype.toDeg`. -/
def toDeg (x : ℝ) : ℝ := x * 180 / Real.pi

/-- JavaScript truncation toward zero, the rounding used by the `%`
operator. -/
def jsTrunc (t : ℝ) : ℝ := if 0 ≤ t then (⌊t⌋ : ℝ) else (⌈t⌉ : ℝ)

/-- The JavaScript remainder `x % y`: the remainder carries the sign of the
dividend, unlike the mathematical modulus. -/
def jsRem (x y : ℝ) : ℝ := x - y * jsTrunc (x / y)

/-- The `Number.prototype.toBrng`: `(this.toDeg() + 360) % 360`. -/
def toBrng (x : ℝ) : ℝ := jsRem (toDeg x + 360) 360

/-- The `Math.atan2 y x`, the argument of the complex number `x + y·i` (with
`atan2 0 0 = 0`, as in JavaScript). -/
def atan2 (y x : ℝ) : ℝ := Complex.arg ⟨x, y⟩

/-- The `L.LatLng.prototype.rhumbDestinationPoint(brng, dist)` (part_001 lines
1528-1549) over exact reals, with the JavaScript remainder written out. -/
def rhumbDestinationPoint (p : LatLng ℝ) (brng dist : ℝ) : LatLng ℝ :=
  let R : ℝ := 6371
  let d := dist / R
  let lat1 := toRad p.lat
  let lon1 := toRad p.lng
  let brngR := toRad brng
  let lat2 := lat1 + d * Real.cos brngR
  let dLat := lat2 - lat1
  let dPhi := Real.log (Real.tan (lat2 / 2 + Real.pi / 4) /
                        Real.tan (lat1 / 2 + Real.pi / 4))
  let q := if 1e-10 < |dLat| then dLat / dPhi else Real.cos lat1
  let dLon := d * Real.sin brngR / q
  let lat2c :=
    if Real.pi / 2 < |lat2| then
      (if 0 < lat2 then Real.pi - lat2 else -(Real.pi - lat2))
    else lat2
  let lon2 := jsRem (lon1 + dLon + Real.pi) (2 * Real.pi) - Real.pi
  ⟨toDeg lat2c, toDeg lon2⟩

/-- The `L.LatLng.prototype.rhumbBearingTo(dest)` (part_001 lines 1551-1558)
over exact reals. -/
def rhumbBearingTo (p dest : LatLng ℝ) : ℝ :=
  let dLon0 := toRad (dest.lng - p.lng)
  let dPhi := Real.log (Real.tan (toRad dest.lat / 2 + Real.pi / 4) /
                        Real.tan (toRad p.lat / 2 + Real.pi / 4))
  let dLon :=
    if Real.pi < |dLon0| then
      (if 0 < dLon0 then -(2 * Real.pi - dLon0) else 2 * Real.pi + dLon0)
    else dLon0
  toBrng (atan2 dLon dPhi)

/-- The navigation record the program actually runs the core with. -/
def realNav : Nav ℝ where
  dest := fun p b d => some (rhumbDestinationPoint p b d)
  bearingTo := rhumbBearingTo
  degToRad := toRad
  cos := Real.cos

end

/-! ### General lemmas and concrete-run evaluations -/

theorem geti_some_bounds {l : List α'} {i : ℤ} {a : α'}
    (h : geti l i = some a) : 0 ≤ i ∧ i < (l.length : ℤ) := by
  unfold geti at h
  split at h
  · next h0 =>
    refine ⟨h0, ?_⟩
    obtain ⟨hlt, -⟩ := List.getElem?_eq_some.mp h
    omega
  · exact absurd h (by simp)

theorem bind_ok_iff {ε σ τ : Type} {x : Except ε σ} {f : σ → Except ε τ}
    {b : τ} : x >>= f = Except.ok b ↔ ∃ a, x = .ok a ∧ f a = .ok b := by
  cases x <;> simp [Bind.bind, Except.bind]

/-- The `box` never reads the incoming state: every mutable field is reset at
entry before any use, so two calls from different states are the same
computation. -/
theorem box_state_blind (nav : Nav α) (fuel : ℕ) (s₁ s₂ : RBState α)
    (path : List (LatLng α)) (range : α) :
    box nav fuel s₁ path range = box nav fuel s₂ path range := rfl

/-- The `mkBox` and the spec-side `coreRun` are the same wrapper; this is the
content of claim C1 and the bridge the run evaluations below use. -/
theorem mkBox_eq_coreRun (nav : Nav α) (fuel : ℕ) (s : RBState α)
    (pts : List (Option α × Option α)) (dis : α) :
    mkBox nav fuel s pts dis = coreRun nav fuel s pts dis := rfl

/-- The concrete range-1 `box` run, evaluated. -/
theorem run1_eval : box testNav 50 st0 c2lls 1 = .ok (SLit, boxesXLit) := by
  decide

/-- The concrete range-1000 `box` run, evaluated. -/
theorem run1000_eval : box testNav 50 st0 c2lls 1000 = .ok (S1000, boxesX1000) := by
  decide

/-- Converting `ptsQ` through the `LatLng` constructor yields `c2lls`. -/
theorem mapM_ptsQ :
    ptsQ.mapM (fun pt => mkLatLng pt.1 pt.2) =
      (.ok c2lls : Except JSError (List (LatLng ℚ))) := by
  decide

/-- The concrete `mkBox` run at distance 1. -/
theorem mkBox_run_eval : mkBox testNav 50 st0 ptsQ 1 = .ok (SLit, RLit) := by
  unfold mkBox
  rw [if_pos (by decide : 2 ≤ ptsQ.length)]
  exact bind_ok_iff.mpr ⟨c2lls, mapM_ptsQ,
    bind_ok_iff.mpr ⟨(SLit, boxesXLit), run1_eval, by decide⟩⟩

/-- The concrete `mkBox` run at distance 1000. -/
theorem mkBox1000_eval : mkBox testNav 50 st0 ptsQ 1000 = .ok (S1000, R1000) := by
  unfold mkBox
  rw [if_pos (by decide : 2 ≤ ptsQ.length)]
  exact bind_ok_iff.mpr ⟨c2lls, mapM_ptsQ,
    bind_ok_iff.mpr ⟨(S1000, boxesX1000), run1000_eval, by decide⟩⟩

/-- The concrete `coreRun` at range `1000 / 1000` kilometers. -/
theorem coreRun1_eval :
    coreRun testNav 50 st0 ptsQ (1000 / 1000) = .ok (SLit, RLit) := by
  rw [← mkBox_eq_coreRun, show ((1000 : ℚ) / 1000) = 1 by norm_num]
  exact mkBox_run_eval

/-- The concrete `mkBoxFrame` run at distance 1. -/
theorem frame_run_eval :
    mkBoxFrame testNav 50 st0 ptsQ 1 = .ok ((SLit, ptsQ), RLit) := by
  unfold mkBoxFrame
  rw [if_pos (by decide : 2 ≤ ptsQ.length)]
  exact bind_ok_iff.mpr ⟨c2lls, mapM_ptsQ,
    bind_ok_iff.mpr ⟨(SLit, boxesXLit), run1_eval, by decide⟩⟩

/-! ### Claim C1 -/

/-- C1 counterexample: `mkBox` does not divide the distance by 1000; on a
concrete run, `mkBox(pts, 1000)` differs from the core box computation run
with range `1000 / 1000` kilometers. -/
theorem c1_counterexample :
    mkBox testNav 50 st0 ptsQ 1000 ≠ coreRun testNav 50 st0 ptsQ (1000 / 1000) := by
  rw [mkBox1000_eval, coreRun1_eval]
  decide

/-- C1 amended: for every points list and buffer distance, `mkBox` passes
the distance to the core grid/rhumb computation unchanged (the core treats
it as kilometers); no division by 1000 takes place. -/
theorem c1_theorem (nav : Nav α) (fuel : ℕ) (s : RBState α)
    (pts : List (Option α × Option α)) (dis : α) :
    mkBox nav fuel s pts dis = coreRun nav fuel s pts dis :=
  mkBox_eq_coreRun nav fuel s pts dis

/-! ### Claim C2 -/

/-- C2 counterexample: on the concrete route `c2lls` the row-first merged
list (`boxesY_ = boxesYLit`) and the column-first merged list
(`boxesX_ = boxesXLit`) tie at length 2 but differ, and the box computation
returns the column-first list, not the row-first list demanded by the
claim's selection rule. -/
theorem c2_counterexample :
    box testNav 50 st0 c2lls 1 = .ok (SLit, boxesXLit) ∧
    SLit.boxesY_.length ≤ SLit.boxesX_.length ∧
    boxesXLit ≠ SLit.boxesY_ :=
  ⟨run1_eval, by decide, by decide⟩

/-- C2 amended: the box computation returns the column-first merged cover
list (`boxesX_`) whenever its length is less than or equal to the row-first
list's (`boxesY_`) length — in particular on a tie — and the row-first list
only when it is strictly shorter; the two lists are the two sweeps of
`mergeIntersectingCells_` over the run's marked grid. -/
theorem c2_theorem (nav : Nav α) (fuel : ℕ) (s : RBState α)
    (path : List (LatLng α)) (range : α) (s' : RBState α)
    (res : List (LLBounds α)) (h : box nav fuel s path range = .ok (s', res)) :
    mergeIntersectingCells s'.latGrid_ s'.lngGrid_ (s'.grid_.getD []) =
      .ok (s'.boxesY_, s'.boxesX_) ∧
    res = if s'.boxesX_.length ≤ s'.boxesY_.length then s'.boxesX_
          else s'.boxesY_ := by
  simp only [box, bind_ok_iff] at h
  obtain ⟨r, hbg, g1, hfi, bs, hmg, h⟩ := h
  injection h with h2
  rw [Prod.mk.injEq] at h2
  obtain ⟨hs, hres⟩ := h2
  subst hs
  subst hres
  exact ⟨hmg, rfl⟩

/-- C2 witness: the amended selection rule evaluated on the concrete run. -/
theorem c2_witness :
    mergeIntersectingCells SLit.latGrid_ SLit.lngGrid_ (SLit.grid_.getD []) =
      .ok (SLit.boxesY_, SLit.boxesX_) ∧
    boxesXLit = if SLit.boxesX_.length ≤ SLit.boxesY_.length then SLit.boxesX_
          else SLit.boxesY_ :=
  c2_theorem testNav 50 st0 c2lls 1 SLit boxesXLit run1_eval

/-! ### Claim C4 -/

/-- C4: with fewer than 2 points, `mkBox` returns an empty sequence and no
error, leaving the shared state untouched. -/
theorem c4_theorem (nav : Nav α) (fuel : ℕ) (s : RBState α)
    (pts : List (Option α × Option α)) (dis : α) (h : pts.length < 2) :
    mkBox nav fuel s pts dis = .ok (s, []) := by
  unfold mkBox
  rw [if_neg (by omega)]

/-- C4 witness: the empty points list. -/
theorem c4_witness :
    ([] : List (Option ℚ × Option ℚ)).length < 2 ∧
      mkBox testNav 0 st0 [] 20 = .ok (st0, []) :=
  ⟨by decide, c4_theorem testNav 0 st0 [] 20 (by decide)⟩

/-! ### Claim C6 -/

theorem mkLatLng_error_iff (la ln : Option α) :
    (mkLatLng la ln).isOk = false ↔ la = none ∨ ln = none := by
  cases la <;> cases ln <;> simp [mkLatLng, Except.isOk, Except.toBool]

theorem mkLatLng_error_val {la ln : Option α} {e : JSError}
    (h : mkLatLng la ln = .error e) : e = .invalidLatLng := by
  cases la <;> cases ln <;> simp [mkLatLng] at h <;> exact h.symm

theorem mapM_mkLatLng_error {pts : List (Option α × Option α)}
    (h : ∃ p ∈ pts, p.1 = none ∨ p.2 = none) :
    pts.mapM (fun pt => mkLatLng pt.1 pt.2) =
      (.error .invalidLatLng : Except JSError (List (LatLng α))) := by
  induction pts with
  | nil => simp at h
  | cons p rest ih =>
    rw [List.mapM_cons]
    obtain ⟨q, hq, hbad⟩ := h
    rcases List.mem_cons.mp hq with rfl | hmem
    · have hq2 : mkLatLng q.1 q.2 =
          (.error .invalidLatLng : Except JSError (LatLng α)) := by
        rcases hbad with h1 | h1
        · rw [h1]; cases q.2 <;> rfl
        · rw [h1]; cases q.1 <;> rfl
      rw [hq2]
      rfl
    · cases hfp : mkLatLng p.1 p.2 with
      | error e =>
        have he := mkLatLng_error_val hfp
        subst he
        rfl
      | ok l =>
        have hrest := ih ⟨q, hmem, hbad⟩
        simp only [hrest]
        rfl

/-- C6: the `LatLng` constructor throws synchronously iff a supplied
coordinate is non-numeric, and `mkBox` (which constructs a point from every
input pair before the core runs) propagates that error to the caller
uncaught. -/
theorem c6_theorem :
    (∀ la ln : Option α, (mkLatLng la ln).isOk = false ↔
      la = none ∨ ln = none) ∧
    (∀ (nav : Nav α) (fuel : ℕ) (s : RBState α)
        (pts : List (Option α × Option α)) (dis : α), 2 ≤ pts.length →
        (∃ p ∈ pts, p.1 = none ∨ p.2 = none) →
        mkBox nav fuel s pts dis = .error .invalidLatLng) := by
  refine ⟨mkLatLng_error_iff, ?_⟩
  intro nav fuel s pts dis hlen hbad
  unfold mkBox
  rw [if_pos hlen, mapM_mkLatLng_error hbad]
  rfl

/-- C6 witness: a list with a NaN longitude in its first pair. -/
theorem c6_witness :
    2 ≤ ptsBad.length ∧
      mkBox testNav 0 st0 ptsBad 20 = .error .invalidLatLng :=
  ⟨by decide, c6_theorem.2 testNav 0 st0 ptsBad 20 (by decide)
    ⟨(some 1, none), by simp [ptsBad], Or.inr rfl⟩⟩

/-! ### Claim C7 -/

theorem boxInv_extendPt (b : LLBounds α) (p : LatLng α) :
    boxInv (b.extendPt p) :=
  ⟨le_trans (min_le_left _ _) (le_max_left _ _),
   le_trans (min_le_left _ _) (le_max_left _ _)⟩

theorem boxInv_ofCorners (c1 c2 : LatLng α) : boxInv (boundsOfCorners c1 c2) :=
  ⟨le_trans (min_le_left _ _) (le_max_left _ _),
   le_trans (min_le_left _ _) (le_max_left _ _)⟩

theorem getCellBounds_inv {latG lngG : List α} {cell : ℤ × ℤ}
    {b : LLBounds α} (h : getCellBounds latG lngG cell = .ok b) : boxInv b := by
  unfold getCellBounds at h
  rw [bind_ok_iff] at h
  obtain ⟨c1, -, h⟩ := h
  rw [bind_ok_iff] at h
  obtain ⟨c2, -, h⟩ := h
  injection h with h2
  rw [← h2]
  exact boxInv_ofCorners c1 c2

theorem mergeBoxesYGo_inv {l : List (LLBounds α)} {b : LLBounds α}
    (hl : ∀ c ∈ l, boxInv c) (hb : boxInv b) :
    ∀ c ∈ mergeBoxesYGo l b, boxInv c := by
  induction l with
  | nil =>
    intro c hc
    rw [mergeBoxesYGo] at hc
    simp at hc
    rwa [hc]
  | cons bx rest ih =>
    intro c hc
    rw [mergeBoxesYGo] at hc
    split at hc
    · rcases List.mem_cons.mp hc with rfl | hm
      · exact boxInv_extendPt bx b.ne
      · exact hl c (List.mem_cons_of_mem bx hm)
    · rcases List.mem_cons.mp hc with rfl | hm
      · exact hl c (List.mem_cons_self c rest)
      · exact ih (fun d hd => hl d (List.mem_cons_of_mem bx hd)) c hm

theorem mergeBoxesXGo_inv {l : List (LLBounds α)} {b : LLBounds α}
    (hl : ∀ c ∈ l, boxInv c) (hb : boxInv b) :
    ∀ c ∈ mergeBoxesXGo l b, boxInv c := by
  induction l with
  | nil =>
    intro c hc
    rw [mergeBoxesXGo] at hc
    simp at hc
    rwa [hc]
  | cons bx rest ih =>
    intro c hc
    rw [mergeBoxesXGo] at hc
    split at hc
    · rcases List.mem_cons.mp hc with rfl | hm
      · exact boxInv_extendPt bx b.ne
      · exact hl c (List.mem_cons_of_mem bx hm)
    · rcases List.mem_cons.mp hc with rfl | hm
      · exact hl c (List.mem_cons_self c rest)
      · exact ih (fun d hd => hl d (List.mem_cons_of_mem bx hd)) c hm

theorem mergeBoxesY_inv {acc : List (LLBounds α)} {cur : Option (LLBounds α)}
    (ha : ∀ c ∈ acc, boxInv c) (hc : ∀ b, cur = some b → boxInv b) :
    ∀ c ∈ mergeBoxesY acc cur, boxInv c := by
  cases cur with
  | none => exact ha
  | some b => exact mergeBoxesYGo_inv ha (hc b rfl)

theorem mergeBoxesX_inv {acc : List (LLBounds α)} {cur : Option (LLBounds α)}
    (ha : ∀ c ∈ acc, boxInv c) (hc : ∀ b, cur = some b → boxInv b) :
    ∀ c ∈ mergeBoxesX acc cur, boxInv c := by
  cases cur with
  | none => exact ha
  | some b => exact mergeBoxesXGo_inv ha (hc b rfl)

theorem rowScan_inv {latG lngG : List α} {g : List (List Bool)} {y : ℕ} :
    ∀ {xs : List ℕ} {cur : Option (LLBounds α)} {acc : List (LLBounds α)}
      {out : Option (LLBounds α) × List (LLBounds α)},
      rowScan latG lngG g y xs cur acc = .ok out →
      (∀ c ∈ acc, boxInv c) → (∀ b, cur = some b → boxInv b) →
      (∀ b, out.1 = some b → boxInv b) ∧ (∀ c ∈ out.2, boxInv c) := by
  intro xs
  induction xs with
  | nil =>
    intro cur acc out h ha hc
    rw [rowScan] at h
    injection h with h2
    rw [← h2]
    exact ⟨hc, ha⟩
  | cons x xs ih =>
    intro cur acc out h ha hc
    rw [rowScan] at h
    split at h
    · rw [bind_ok_iff] at h
      obtain ⟨b, hb, h⟩ := h
      refine ih h ha ?_
      intro d hd
      cases cur with
      | some c =>
        simp at hd
        rw [← hd]
        exact boxInv_extendPt c b.ne
      | none =>
        simp at hd
        rw [← hd]
        exact getCellBounds_inv hb
    · exact ih h (mergeBoxesY_inv ha hc) (by intro b hb; cases hb)

theorem rowPass_inv {latG lngG : List α} {g : List (List Bool)}
    {numCols : ℕ} :
    ∀ {ys : List ℕ} {acc : List (LLBounds α)} {out : List (LLBounds α)},
      rowPass latG lngG g numCols ys acc = .ok out →
      (∀ c ∈ acc, boxInv c) → ∀ c ∈ out, boxInv c := by
  intro ys
  induction ys with
  | nil =>
    intro acc out h ha
    rw [rowPass] at h
    injection h with h2
    rw [← h2]
    exact ha
  | cons y ys ih =>
    intro acc out h ha
    rw [rowPass] at h
    rw [bind_ok_iff] at h
    obtain ⟨r, hr, h⟩ := h
    have hr' := rowScan_inv hr ha (by intro b hb; cases hb)
    exact ih h (mergeBoxesY_inv hr'.2 hr'.1)

theorem colScan_inv {latG lngG : List α} {g : List (List Bool)} {x : ℕ} :
    ∀ {ys : List ℕ} {cur : Option (LLBounds α)} {acc : List (LLBounds α)}
      {out : Option (LLBounds α) × List (LLBounds α)},
      colScan latG lngG g x ys cur acc = .ok out →
      (∀ c ∈ acc, boxInv c) → (∀ b, cur = some b → boxInv b) →
      (∀ b, out.1 = some b → boxInv b) ∧ (∀ c ∈ out.2, boxInv c) := by
  intro ys
  induction ys with
  | nil =>
    intro cur acc out h ha hc
    rw [colScan] at h
    injection h with h2
    rw [← h2]
    exact ⟨hc, ha⟩
  | cons y ys ih =>
    intro cur acc out h ha hc
    rw [colScan] at h
    split at h
    · rw [bind_ok_iff] at h
      obtain ⟨b, hb, h⟩ := h
      refine ih h ha ?_
      intro d hd
      cases cur with
      | some c =>
        simp at hd
        rw [← hd]
        exact boxInv_extendPt c b.ne
      | none =>
        simp at hd
        rw [← hd]
        exact getCellBounds_inv hb
    · exact ih h (mergeBoxesX_inv ha hc) (by intro b hb; cases hb)

theorem colPass_inv {latG lngG : List α} {g : List (List Bool)}
    {numRows : ℕ} :
    ∀ {xs : List ℕ} {acc : List (LLBounds α)} {out : List (LLBounds α)},
      colPass latG lngG g numRows xs acc = .ok out →
      (∀ c ∈ acc, boxInv c) → ∀ c ∈ out, boxInv c := by
  intro xs
  induction xs with
  | nil =>
    intro acc out h ha
    rw [colPass] at h
    injection h with h2
    rw [← h2]
    exact ha
  | cons x xs ih =>
    intro acc out h ha
    rw [colPass] at h
    rw [bind_ok_iff] at h
    obtain ⟨r, hr, h⟩ := h
    have hr' := colScan_inv hr ha (by intro b hb; cases hb)
    exact ih h (mergeBoxesX_inv hr'.2 hr'.1)

theorem mergeIntersectingCells_inv {latG lngG : List α}
    {g : List (List Bool)} {bs : List (LLBounds α) × List (LLBounds α)}
    (h : mergeIntersectingCells latG lngG g = .ok bs) :
    (∀ c ∈ bs.1, boxInv c) ∧ ∀ c ∈ bs.2, boxInv c := by
  unfold mergeIntersectingCells at h
  split at h
  · cases h
  · rw [bind_ok_iff] at h
    obtain ⟨bY, hY, h⟩ := h
    rw [bind_ok_iff] at h
    obtain ⟨bX, hX, h⟩ := h
    injection h with h2
    rw [← h2]
    exact ⟨rowPass_inv hY (by simp), colPass_inv hX (by simp)⟩

theorem box_inv {nav : Nav α} {fuel : ℕ} {s : RBState α}
    {path : List (LatLng α)} {range : α} {s' : RBState α}
    {res : List (LLBounds α)} (h : box nav fuel s path range = .ok (s', res)) :
    ∀ c ∈ res, boxInv c := by
  simp only [box, bind_ok_iff] at h
  obtain ⟨r, -, g1, -, bs, hmg, h⟩ := h
  injection h with h2
  rw [Prod.mk.injEq] at h2
  obtain ⟨-, hres⟩ := h2
  rw [← hres]
  have hbs := mergeIntersectingCells_inv hmg
  split
  · exact hbs.2
  · exact hbs.1

/-- C7: every box in every successful `mkBox` result satisfies
`southwest.lat ≤ northeast.lat` and `southwest.lng ≤ northeast.lng`. -/
theorem c7_theorem (nav : Nav α) (fuel : ℕ) (s : RBState α)
    (pts : List (Option α × Option α)) (dis : α) (s' : RBState α)
    (res : List ((α × α) × (α × α)))
    (h : mkBox nav fuel s pts dis = .ok (s', res)) :
    ∀ b ∈ res, b.1.1 ≤ b.2.1 ∧ b.1.2 ≤ b.2.2 := by
  unfold mkBox at h
  split at h
  · rw [bind_ok_iff] at h
    obtain ⟨lls, -, h⟩ := h
    rw [bind_ok_iff] at h
    obtain ⟨r, hr, h⟩ := h
    injection h with h2
    rw [Prod.mk.injEq] at h2
    obtain ⟨-, hres⟩ := h2
    rw [← hres]
    intro b hb
    obtain ⟨c, hc, hbc⟩ := List.mem_map.mp hb
    have hinv : boxInv c := box_inv hr c hc
    rw [← hbc]
    exact hinv
  · injection h with h2
    rw [Prod.mk.injEq] at h2
    obtain ⟨-, hres⟩ := h2
    rw [← hres]
    intro b hb
    cases hb

/-- C7 witness: the invariant evaluated on the concrete run. -/
theorem c7_witness :
    mkBox testNav 50 st0 ptsQ 1 = .ok (SLit, RLit) ∧
      ∀ b ∈ RLit, b.1.1 ≤ b.2.1 ∧ b.1.2 ≤ b.2.2 :=
  ⟨mkBox_run_eval, c7_theorem testNav 50 st0 ptsQ 1 SLit RLit mkBox_run_eval⟩

/-! ### Claim C8 -/

/-- C8: `mkBox` is deterministic across repeated invocations on the shared
`RouteBoxer` state: whatever states two calls start from (in particular
whatever intervening calls produced them), identical inputs give equal
outputs, because `box` overwrites every mutable field before reading it. -/
theorem c8_theorem (nav : Nav α) (fuel : ℕ) (s₁ s₂ : RBState α)
    (pts : List (Option α × Option α)) (dis : α) :
    (mkBox nav fuel s₁ pts dis).map (fun r => r.2) =
    (mkBox nav fuel s₂ pts dis).map (fun r => r.2) := by
  by_cases h : 2 ≤ pts.length
  · simp only [mkBox, if_pos h, box_state_blind nav fuel s₁ s₂]
  · simp only [mkBox, if_neg h]
    rfl

/-! ### Claim C9 -/

/-- C9: `mkBox` does not modify its input: the caller's points array,
threaded through the call as explicit state, comes back as it went in. -/
theorem c9_theorem (nav : Nav α) (fuel : ℕ) (s : RBState α)
    (pts : List (Option α × Option α)) (dis : α)
    (out : (RBState α × List (Option α × Option α)) ×
      List ((α × α) × (α × α)))
    (h : mkBoxFrame nav fuel s pts dis = .ok out) : out.1.2 = pts := by
  unfold mkBoxFrame at h
  split at h
  · rw [bind_ok_iff] at h
    obtain ⟨lls, -, h⟩ := h
    rw [bind_ok_iff] at h
    obtain ⟨r, -, h⟩ := h
    injection h with h2
    rw [← h2]
  · injection h with h2
    rw [← h2]

/-- C9 witness: the concrete run returns the points array unchanged. -/
theorem c9_witness :
    mkBoxFrame testNav 50 st0 ptsQ 1 = .ok ((SLit, ptsQ), RLit) ∧
      ((SLit, ptsQ), RLit).1.2 = ptsQ :=
  ⟨frame_run_eval,
   c9_theorem testNav 50 st0 ptsQ 1 ((SLit, ptsQ), RLit) frame_run_eval⟩

/-! ### Claim C10

The chain: a successful `mkBox` run with at least two points ran
`findIntersectingCells_`, whose first `markCell_` succeeded and left a
marked cell inside the region both merge sweeps traverse (marking only ever
adds cells), and a sweep over a grid with a marked cell in range flushes at
least one box, so the returned set is non-empty. -/

theorem length_takeWhile_le (p : α' → Bool) (l : List α') :
    (l.takeWhile p).length ≤ l.length := by
  induction l with
  | nil => simp [List.takeWhile_nil]
  | cons a l ih =>
    rw [List.takeWhile_cons]
    split
    · simp only [List.length_cons]
      omega
    · simp

theorem Pres.rfl (g : List (List Bool)) : Pres g g :=
  ⟨Eq.refl _, fun _ => le_rfl, fun _ _ h => h⟩

theorem Pres.trans {g g' g'' : List (List Bool)} (h1 : Pres g g')
    (h2 : Pres g' g'') : Pres g g'' :=
  ⟨h2.1.trans h1.1, fun j => (h1.2.1 j).trans (h2.2.1 j),
   fun a b hb => h2.2.2 a b (h1.2.2 a b hb)⟩

theorem jsSetCol_length (col : List Bool) (y : ℤ) :
    col.length ≤ (jsSetCol col y).length := by
  unfold jsSetCol
  split
  · exact le_rfl
  · split
    · rw [List.length_set]
    · simp only [List.length_append, List.length_replicate, List.length_cons,
        List.length_nil]
      omega

theorem gridGet_true_iff {g : List (List Bool)} {a b : ℤ} :
    gridGet g a b = true ↔
      ∃ col, geti g a = some col ∧ geti col b = some true := by
  unfold gridGet
  cases hg : geti g a with
  | none => simp
  | some col =>
    simp only [Option.some_bind]
    cases hc : geti col b with
    | none => simp [hc]
    | some v =>
      simp only [Option.getD_some]
      constructor
      · intro hv
        exact ⟨col, Eq.refl _, hv ▸ hc⟩
      · intro ⟨col', hcol', hv⟩
        injection hcol' with he
        subst he
        rw [hc] at hv
        exact Option.some.inj hv

theorem geti_jsSetCol_true {col : List Bool} {y y' : ℤ}
    (h : geti col y' = some true) : geti (jsSetCol col y) y' = some true := by
  obtain ⟨h0, hlt⟩ := geti_some_bounds h
  have hlt' : y'.toNat < col.length := by omega
  unfold geti at h ⊢
  rw [if_pos h0] at h ⊢
  unfold jsSetCol
  split
  · exact h
  · split
    · rcases eq_or_ne y.toNat y'.toNat with he | hne
      · rw [he, List.getElem?_set_self (by omega)]
      · rw [List.getElem?_set_ne hne]
        exact h
    · have hb1 : y'.toNat <
          (col ++ List.replicate (y.toNat - col.length) false).length := by
        simp only [List.length_append, List.length_replicate]
        omega
      rw [List.getElem?_append_left hb1, List.getElem?_append_left hlt']
      exact h

theorem geti_jsSetCol_self {col : List Bool} {y : ℤ} (h0 : 0 ≤ y) :
    geti (jsSetCol col y) y = some true := by
  unfold geti
  rw [if_pos h0]
  unfold jsSetCol
  rw [if_neg (by omega : ¬ y < 0)]
  split
  · next hlt => exact List.getElem?_set_self hlt
  · next hge =>
    have hlen : (col ++ List.replicate (y.toNat - col.length) false).length =
        y.toNat := by
      simp only [List.length_append, List.length_replicate]
      omega
    rw [List.getElem?_append_right (le_of_eq hlen), hlen]
    simp

theorem geti_set_ne {l : List α'} {n : ℕ} {v : α'} {j : ℤ}
    (hne : j ≠ (n : ℤ)) : geti (l.set n v) j = geti l j := by
  unfold geti
  split
  · next h0 =>
    rw [List.getElem?_set_ne (by omega)]
  · rfl

theorem jsSetGrid_pres {g g' : List (List Bool)} {x y : ℤ}
    (h : jsSetGrid g x y = .ok g') : Pres g g' := by
  unfold jsSetGrid at h
  split at h
  · next col hg =>
    injection h with h2
    obtain ⟨hx0, hxlt⟩ := geti_some_bounds hg
    have hxnat : x.toNat < g.length := by omega
    have hgx : geti (g.set x.toNat (jsSetCol col y)) x =
        some (jsSetCol col y) := by
      unfold geti
      rw [if_pos hx0]
      exact List.getElem?_set_self hxnat
    refine ⟨?_, ?_, ?_⟩
    · rw [← h2, List.length_set]
    · intro j
      rcases eq_or_ne j x with rfl | hne
      · rw [← h2]
        unfold cLen
        rw [hgx, hg]
        exact jsSetCol_length col y
      · rw [← h2]
        unfold cLen
        rw [geti_set_ne (by omega)]
    · intro a b hab
      rw [← h2]
      obtain ⟨cola, hcola, hb⟩ := gridGet_true_iff.mp hab
      rcases eq_or_ne a x with rfl | hne
      · rw [hg] at hcola
        injection hcola with he
        subst he
        exact gridGet_true_iff.mpr
          ⟨jsSetCol col y, hgx, geti_jsSetCol_true hb⟩
      · refine gridGet_true_iff.mpr ⟨cola, ?_, hb⟩
        rw [geti_set_ne (by omega)]
        exact hcola
  · cases h

theorem jsSetGrid_self {g g' : List (List Bool)} {x y : ℤ}
    (h : jsSetGrid g x y = .ok g') (h0 : 0 ≤ y) : gridGet g' x y = true := by
  unfold jsSetGrid at h
  split at h
  · next col hg =>
    injection h with h2
    obtain ⟨hx0, hxlt⟩ := geti_some_bounds hg
    rw [← h2]
    refine gridGet_true_iff.mpr ⟨jsSetCol col y, ?_, geti_jsSetCol_self h0⟩
    unfold geti
    rw [if_pos hx0]
    exact List.getElem?_set_self (by omega)
  · cases h

theorem markCell_pres {g g' : List (List Bool)} {c : ℤ × ℤ}
    (h : markCell g c = .ok g') : Pres g g' := by
  unfold markCell at h
  simp only [bind_ok_iff] at h
  obtain ⟨g1, h1, g2, h2, g3, h3, g4, h4, g5, h5, g6, h6, g7, h7, g8, h8,
    g9, h9, hfin⟩ := h
  injection hfin with hfin2
  rw [← hfin2]
  exact (jsSetGrid_pres h1).trans ((jsSetGrid_pres h2).trans
    ((jsSetGrid_pres h3).trans ((jsSetGrid_pres h4).trans
    ((jsSetGrid_pres h5).trans ((jsSetGrid_pres h6).trans
    ((jsSetGrid_pres h7).trans ((jsSetGrid_pres h8).trans
    (jsSetGrid_pres h9))))))))

theorem markCell_marks {g g' : List (List Bool)} {cell : ℤ × ℤ}
    (h : markCell g cell = .ok g') (hy : -1 ≤ cell.2) :
    gridGet g' cell.1 (max cell.2 0) = true := by
  unfold markCell at h
  simp only [bind_ok_iff] at h
  obtain ⟨g1, h1, g2, h2, g3, h3, g4, h4, g5, h5, g6, h6, g7, h7, g8, h8,
    g9, h9, hfin⟩ := h
  injection hfin with hfin2
  rw [← hfin2]
  rcases le_or_lt 0 cell.2 with h0 | hneg
  · rw [max_eq_left h0]
    have ht := jsSetGrid_self h5 h0
    exact ((jsSetGrid_pres h6).trans ((jsSetGrid_pres h7).trans
      ((jsSetGrid_pres h8).trans (jsSetGrid_pres h9)))).2.2 _ _ ht
  · rw [max_eq_right (by omega : cell.2 ≤ 0)]
    have h0' : (0 : ℤ) ≤ cell.2 + 1 := by omega
    have ht := jsSetGrid_self h8 h0'
    have hy1 : cell.2 + 1 = 0 := by omega
    rw [hy1] at ht
    exact (jsSetGrid_pres h9).2.2 _ _ ht

theorem markCell_xbound {g g' : List (List Bool)} {cell : ℤ × ℤ}
    (h : markCell g cell = .ok g') : 0 ≤ cell.1 ∧ cell.1 < (g.length : ℤ) := by
  unfold markCell at h
  simp only [bind_ok_iff] at h
  obtain ⟨g1, h1, g2, h2, g3, h3, g4, h4, g5, h5, -⟩ := h
  have hlen : g4.length = g.length :=
    ((jsSetGrid_pres h1).trans ((jsSetGrid_pres h2).trans
      ((jsSetGrid_pres h3).trans (jsSetGrid_pres h4)))).1
  unfold jsSetGrid at h5
  split at h5
  · next hg =>
    obtain ⟨hx0, hxlt⟩ := geti_some_bounds hg
    omega
  · cases h5

theorem fillUpGo_pres {y : ℤ} : ∀ {fuel : ℕ} {g g' : List (List Bool)}
    {x endx : ℤ}, fillUpGo y g x endx fuel = .ok g' → Pres g g' := by
  intro fuel
  induction fuel with
  | zero => intro g g' x endx h; cases h
  | succ fuel ih =>
    intro g g' x endx h
    rw [fillUpGo] at h
    split at h
    · rw [bind_ok_iff] at h
      obtain ⟨g1, h1, h2⟩ := h
      exact (markCell_pres h1).trans (ih h2)
    · injection h with h2
      rw [← h2]
      exact Pres.rfl g

theorem fillDownGo_pres {y : ℤ} : ∀ {fuel : ℕ} {g g' : List (List Bool)}
    {x endx : ℤ}, fillDownGo y g x endx fuel = .ok g' → Pres g g' := by
  intro fuel
  induction fuel with
  | zero => intro g g' x endx h; cases h
  | succ fuel ih =>
    intro g g' x endx h
    rw [fillDownGo] at h
    split at h
    · rw [bind_ok_iff] at h
      obtain ⟨g1, h1, h2⟩ := h
      exact (markCell_pres h1).trans (ih h2)
    · injection h with h2
      rw [← h2]
      exact Pres.rfl g

theorem fillInGridSquares_pres {g g' : List (List Bool)} {sx ex y : ℤ}
    (h : fillInGridSquares g sx ex y = .ok g') : Pres g g' := by
  unfold fillInGridSquares at h
  split at h
  · exact fillUpGo_pres h
  · exact fillDownGo_pres h

theorem ggiNorthGo_pres {nav : Nav α} {latG lngG : List α}
    {start : LatLng α} {brng : α} {endXY : ℤ × ℤ} :
    ∀ {fuel : ℕ} {g g' : List (List Bool)} {hintP : LatLng α}
      {hintXY : ℤ × ℤ} {i : ℤ},
      ggiNorthGo nav latG lngG start brng endXY g hintP hintXY i fuel = .ok g' →
      Pres g g' := by
  intro fuel
  induction fuel with
  | zero => intro g g' hintP hintXY i h; cases h
  | succ fuel ih =>
    intro g g' hintP hintXY i h
    rw [ggiNorthGo] at h
    split at h
    · split at h
      · cases h
      · split at h
        · cases h
        · rw [bind_ok_iff] at h
          obtain ⟨g1, h1, h2⟩ := h
          exact (fillInGridSquares_pres h1).trans (ih h2)
    · exact fillInGridSquares_pres h

theorem ggiSouthGo_pres {nav : Nav α} {latG lngG : List α}
    {start : LatLng α} {brng : α} {endXY : ℤ × ℤ} :
    ∀ {fuel : ℕ} {g g' : List (List Bool)} {hintP : LatLng α}
      {hintXY : ℤ × ℤ} {i : ℤ},
      ggiSouthGo nav latG lngG start brng endXY g hintP hintXY i fuel = .ok g' →
      Pres g g' := by
  intro fuel
  induction fuel with
  | zero => intro g g' hintP hintXY i h; cases h
  | succ fuel ih =>
    intro g g' hintP hintXY i h
    rw [ggiSouthGo] at h
    split at h
    · split at h
      · cases h
      · split at h
        · cases h
        · rw [bind_ok_iff] at h
          obtain ⟨g1, h1, h2⟩ := h
          exact (fillInGridSquares_pres h1).trans (ih h2)
    · exact fillInGridSquares_pres h

theorem getGridIntersects_pres {nav : Nav α} {latG lngG : List α}
    {g g' : List (List Bool)} {start endP : LatLng α} {startXY endXY : ℤ × ℤ}
    (h : getGridIntersects nav latG lngG g start endP startXY endXY = .ok g') :
    Pres g g' := by
  unfold getGridIntersects at h
  split at h
  · exact ggiNorthGo_pres h
  · exact ggiSouthGo_pres h

theorem fiLoop_pres {nav : Nav α} {latG lngG : List α} :
    ∀ {rest : List (LatLng α)} {g g' : List (List Bool)} {prevP : LatLng α}
      {prevXY : ℤ × ℤ},
      fiLoop nav latG lngG g prevP prevXY rest = .ok g' → Pres g g' := by
  intro rest
  induction rest with
  | nil =>
    intro g g' prevP prevXY h
    rw [fiLoop] at h
    injection h with h2
    rw [← h2]
    exact Pres.rfl g
  | cons p rest ih =>
    intro g g' prevP prevXY h
    rw [fiLoop] at h
    split at h
    · rw [bind_ok_iff] at h
      obtain ⟨g1, h1, h2⟩ := h
      injection h1 with h12
      rw [← h12] at h2
      exact ih h2
    · split at h
      · rw [bind_ok_iff] at h
        obtain ⟨g1, h1, h2⟩ := h
        exact (markCell_pres h1).trans (ih h2)
      · rw [bind_ok_iff] at h
        obtain ⟨g1, h1, h2⟩ := h
        exact (getGridIntersects_pres h1).trans (ih h2)

theorem fic_marked {nav : Nav α} {latG lngG : List α}
    {g0 g' : List (List Bool)} {v0 : LatLng α} {rest : List (LatLng α)}
    (h : findIntersectingCells nav latG lngG g0 (v0 :: rest) = .ok g')
    (hcol : latG.length ≤ cLen g0 0) (hlat : 1 ≤ latG.length) :
    ∃ x y : ℤ, 0 ≤ x ∧ x < (g'.length : ℤ) ∧ 0 ≤ y ∧
      y.toNat < cLen g' 0 ∧ gridGet g' x y = true := by
  simp only [findIntersectingCells, bind_ok_iff] at h
  obtain ⟨g1, hmk, hloop⟩ := h
  have hy0lb : -1 ≤ (getCellCoords latG lngG v0).2 := by
    unfold getCellCoords
    dsimp only
    omega
  have hy0ub : (getCellCoords latG lngG v0).2 < (latG.length : ℤ) := by
    unfold getCellCoords
    dsimp only
    have := length_takeWhile_le (fun a => decide (a < v0.lat)) latG
    omega
  obtain ⟨hx0, hxlt⟩ := markCell_xbound hmk
  have hmarks := markCell_marks hmk hy0lb
  have hpres0 := markCell_pres hmk
  have hpres := fiLoop_pres hloop
  refine ⟨(getCellCoords latG lngG v0).1, max (getCellCoords latG lngG v0).2 0,
    hx0, ?_, le_max_right _ _, ?_, hpres.2.2 _ _ hmarks⟩
  · have e1 : g1.length = g0.length := hpres0.1
    have e2 : g'.length = g1.length := hpres.1
    omega
  · have hmax0 : (0 : ℤ) ≤ max (getCellCoords latG lngG v0).2 0 :=
      le_max_right _ _
    have hmaxlt : max (getCellCoords latG lngG v0).2 0 < (latG.length : ℤ) :=
      max_lt hy0ub (by omega)
    have h2 : cLen g0 0 ≤ cLen g1 0 := hpres0.2.1 0
    have h3 : cLen g1 0 ≤ cLen g' 0 := hpres.2.1 0
    omega

theorem growTail_len {nav : Nav α} {c : LatLng α} {range lim brng : α}
    {proj : LatLng α → α} : ∀ {fuel i : ℕ} {acc out : List α},
    growTail nav c range lim brng proj fuel i acc = .ok out →
    acc.length ≤ out.length := by
  intro fuel
  induction fuel with
  | zero => intro i acc out h; cases h
  | succ fuel ih =>
    intro i acc out h
    rw [growTail] at h
    split at h
    · split at h
      · rw [bind_ok_iff] at h
        obtain ⟨q, -, h⟩ := h
        have := ih h
        simp only [List.length_append, List.length_cons, List.length_nil] at this
        omega
      · injection h with h2
        rw [← h2]
    · injection h with h2
      rw [← h2]

theorem growHead_len {nav : Nav α} {c : LatLng α} {range lim brng : α}
    {proj : LatLng α → α} : ∀ {fuel i : ℕ} {acc out : List α},
    growHead nav c range lim brng proj fuel i acc = .ok out →
    acc.length ≤ out.length := by
  intro fuel
  induction fuel with
  | zero => intro i acc out h; cases h
  | succ fuel ih =>
    intro i acc out h
    rw [growHead] at h
    split at h
    · split at h
      · rw [bind_ok_iff] at h
        obtain ⟨q, -, h⟩ := h
        have := ih h
        simp only [List.length_cons] at this
        omega
      · injection h with h2
        rw [← h2]
    · injection h with h2
      rw [← h2]

theorem buildGrid_shape {nav : Nav α} {fuel : ℕ} {vertices : List (LatLng α)}
    {range : α} {r : List α × List α × List (List Bool)}
    (h : buildGrid nav fuel vertices range = .ok r) :
    r.2.2 = List.replicate r.2.1.length (List.replicate r.1.length false) ∧
    2 ≤ r.1.length := by
  unfold buildGrid at h
  split at h
  · cases h
  · simp only [bind_ok_iff] at h
    obtain ⟨d1, -, lat1, hlat1, latG, hlatG, e1, -, lng1, -, lngG, -, hfin⟩ := h
    injection hfin with h2
    rw [← h2]
    refine ⟨Eq.refl _, ?_⟩
    show 2 ≤ latG.length
    have l1 := growTail_len hlat1
    have l2 := growHead_len hlatG
    simp only [List.length_cons, List.length_nil] at l1
    omega

theorem mapM_ok_length {β γ : Type} {f : β → Except JSError γ} :
    ∀ {l : List β} {out : List γ}, l.mapM f = .ok out →
    out.length = l.length := by
  intro l
  induction l with
  | nil =>
    intro out h
    rw [List.mapM_nil] at h
    have hp : (pure [] : Except JSError (List γ)) = Except.ok [] := Eq.refl _
    rw [hp] at h
    injection h with h2
    rw [← h2]
    rfl
  | cons a l ih =>
    intro out h
    rw [List.mapM_cons] at h
    rw [bind_ok_iff] at h
    obtain ⟨b, -, h⟩ := h
    rw [bind_ok_iff] at h
    obtain ⟨bs, hbs, h⟩ := h
    have hp : (pure (b :: bs) : Except JSError (List γ)) =
        Except.ok (b :: bs) := Eq.refl _
    rw [hp] at h
    injection h with h2
    rw [← h2]
    simp only [List.length_cons, ih hbs]

theorem mergeBoxesYGo_ne (l : List (LLBounds α)) (b : LLBounds α) :
    mergeBoxesYGo l b ≠ [] := by
  cases l with
  | nil => simp [mergeBoxesYGo]
  | cons bx rest =>
    rw [mergeBoxesYGo]
    split <;> simp

theorem mergeBoxesXGo_ne (l : List (LLBounds α)) (b : LLBounds α) :
    mergeBoxesXGo l b ≠ [] := by
  cases l with
  | nil => simp [mergeBoxesXGo]
  | cons bx rest =>
    rw [mergeBoxesXGo]
    split <;> simp

theorem mergeBoxesY_ne_of_ne {acc : List (LLBounds α)}
    {cur : Option (LLBounds α)} (h : acc ≠ []) : mergeBoxesY acc cur ≠ [] := by
  cases cur with
  | none => exact h
  | some b => exact mergeBoxesYGo_ne acc b

theorem mergeBoxesX_ne_of_ne {acc : List (LLBounds α)}
    {cur : Option (LLBounds α)} (h : acc ≠ []) : mergeBoxesX acc cur ≠ [] := by
  cases cur with
  | none => exact h
  | some b => exact mergeBoxesXGo_ne acc b

theorem mergeBoxesY_ne_of_ne_none {acc : List (LLBounds α)}
    {cur : Option (LLBounds α)} (h : cur ≠ none) : mergeBoxesY acc cur ≠ [] := by
  cases cur with
  | none => exact absurd (Eq.refl _) h
  | some b => exact mergeBoxesYGo_ne acc b

theorem mergeBoxesX_ne_of_ne_none {acc : List (LLBounds α)}
    {cur : Option (LLBounds α)} (h : cur ≠ none) : mergeBoxesX acc cur ≠ [] := by
  cases cur with
  | none => exact absurd (Eq.refl _) h
  | some b => exact mergeBoxesXGo_ne acc b

theorem rowScan_q {latG lngG : List α} {g : List (List Bool)} {y : ℕ} :
    ∀ {xs : List ℕ} {cur : Option (LLBounds α)} {acc out},
    rowScan latG lngG g y xs cur acc = .ok out →
    ((cur ≠ none ∨ acc ≠ []) ∨ ∃ x ∈ xs, gridGet g (x : ℤ) (y : ℤ) = true) →
    (out.1 ≠ none ∨ out.2 ≠ []) := by
  intro xs
  induction xs with
  | nil =>
    intro cur acc out h hq
    rw [rowScan] at h
    injection h with h2
    rw [← h2]
    rcases hq with hq | ⟨x, hx, -⟩
    · exact hq
    · exact absurd hx (List.not_mem_nil x)
  | cons x xs ih =>
    intro cur acc out h hq
    rw [rowScan] at h
    split at h
    · rw [bind_ok_iff] at h
      obtain ⟨b, -, h⟩ := h
      refine ih h (Or.inl (Or.inl ?_))
      cases cur <;> simp
    · next hfalse =>
      refine ih h ?_
      rcases hq with (hq | hne) | ⟨x', hx', hmx⟩
      · left
        right
        exact mergeBoxesY_ne_of_ne_none hq
      · left
        right
        exact mergeBoxesY_ne_of_ne hne
      · rcases List.mem_cons.mp hx' with rfl | hmem
        · exact absurd hmx hfalse
        · right
          exact ⟨x', hmem, hmx⟩

theorem rowScan_acc_ne {latG lngG : List α} {g : List (List Bool)} {y : ℕ} :
    ∀ {xs : List ℕ} {cur : Option (LLBounds α)} {acc out},
    rowScan latG lngG g y xs cur acc = .ok out → acc ≠ [] → out.2 ≠ [] := by
  intro xs
  induction xs with
  | nil =>
    intro cur acc out h hne
    rw [rowScan] at h
    injection h with h2
    rw [← h2]
    exact hne
  | cons x xs ih =>
    intro cur acc out h hne
    rw [rowScan] at h
    split at h
    · rw [bind_ok_iff] at h
      obtain ⟨b, -, h⟩ := h
      exact ih h hne
    · exact ih h (mergeBoxesY_ne_of_ne hne)

theorem colScan_q {latG lngG : List α} {g : List (List Bool)} {x : ℕ} :
    ∀ {ys : List ℕ} {cur : Option (LLBounds α)} {acc out},
    colScan latG lngG g x ys cur acc = .ok out →
    ((cur ≠ none ∨ acc ≠ []) ∨ ∃ y ∈ ys, gridGet g (x : ℤ) (y : ℤ) = true) →
    (out.1 ≠ none ∨ out.2 ≠ []) := by
  intro ys
  induction ys with
  | nil =>
    intro cur acc out h hq
    rw [colScan] at h
    injection h with h2
    rw [← h2]
    rcases hq with hq | ⟨y, hy, -⟩
    · exact hq
    · exact absurd hy (List.not_mem_nil y)
  | cons y ys ih =>
    intro cur acc out h hq
    rw [colScan] at h
    split at h
    · rw [bind_ok_iff] at h
      obtain ⟨b, -, h⟩ := h
      refine ih h (Or.inl (Or.inl ?_))
      cases cur <;> simp
    · next hfalse =>
      refine ih h ?_
      rcases hq with (hq | hne) | ⟨y', hy', hmy⟩
      · left
        right
        exact mergeBoxesX_ne_of_ne_none hq
      · left
        right
        exact mergeBoxesX_ne_of_ne hne
      · rcases List.mem_cons.mp hy' with rfl | hmem
        · exact absurd hmy hfalse
        · right
          exact ⟨y', hmem, hmy⟩

theorem colScan_acc_ne {latG lngG : List α} {g : List (List Bool)} {x : ℕ} :
    ∀ {ys : List ℕ} {cur : Option (LLBounds α)} {acc out},
    colScan latG lngG g x ys cur acc = .ok out → acc ≠ [] → out.2 ≠ [] := by
  intro ys
  induction ys with
  | nil =>
    intro cur acc out h hne
    rw [colScan] at h
    injection h with h2
    rw [← h2]
    exact hne
  | cons y ys ih =>
    intro cur acc out h hne
    rw [colScan] at h
    split at h
    · rw [bind_ok_iff] at h
      obtain ⟨b, -, h⟩ := h
      exact ih h hne
    · exact ih h (mergeBoxesX_ne_of_ne hne)

theorem rowPass_ne {latG lngG : List α} {g : List (List Bool)}
    {numCols : ℕ} : ∀ {ys : List ℕ} {acc out},
    rowPass latG lngG g numCols ys acc = .ok out →
    (acc ≠ [] ∨ ∃ y ∈ ys, ∃ x ∈ List.range numCols,
      gridGet g (x : ℤ) (y : ℤ) = true) →
    out ≠ [] := by
  intro ys
  induction ys with
  | nil =>
    intro acc out h hq
    rw [rowPass] at h
    injection h with h2
    rw [← h2]
    rcases hq with hq | ⟨y, hy, -⟩
    · exact hq
    · exact absurd hy (List.not_mem_nil y)
  | cons y ys ih =>
    intro acc out h hq
    rw [rowPass] at h
    rw [bind_ok_iff] at h
    obtain ⟨r, hr, h⟩ := h
    rcases hq with hne | ⟨y', hy', hex⟩
    · exact ih h (Or.inl (mergeBoxesY_ne_of_ne (rowScan_acc_ne hr hne)))
    · rcases List.mem_cons.mp hy' with rfl | hmem
      · have hr' := rowScan_q hr (Or.inr hex)
        refine ih h (Or.inl ?_)
        rcases hr' with h1 | h1
        · exact mergeBoxesY_ne_of_ne_none h1
        · exact mergeBoxesY_ne_of_ne h1
      · exact ih h (Or.inr ⟨y', hmem, hex⟩)

theorem colPass_ne {latG lngG : List α} {g : List (List Bool)}
    {numRows : ℕ} : ∀ {xs : List ℕ} {acc out},
    colPass latG lngG g numRows xs acc = .ok out →
    (acc ≠ [] ∨ ∃ x ∈ xs, ∃ y ∈ List.range numRows,
      gridGet g (x : ℤ) (y : ℤ) = true) →
    out ≠ [] := by
  intro xs
  induction xs with
  | nil =>
    intro acc out h hq
    rw [colPass] at h
    injection h with h2
    rw [← h2]
    rcases hq with hq | ⟨x, hx, -⟩
    · exact hq
    · exact absurd hx (List.not_mem_nil x)
  | cons x xs ih =>
    intro acc out h hq
    rw [colPass] at h
    rw [bind_ok_iff] at h
    obtain ⟨r, hr, h⟩ := h
    rcases hq with hne | ⟨x', hx', hex⟩
    · exact ih h (Or.inl (mergeBoxesX_ne_of_ne (colScan_acc_ne hr hne)))
    · rcases List.mem_cons.mp hx' with rfl | hmem
      · have hr' := colScan_q hr (Or.inr hex)
        refine ih h (Or.inl ?_)
        rcases hr' with h1 | h1
        · exact mergeBoxesX_ne_of_ne_none h1
        · exact mergeBoxesX_ne_of_ne h1
      · exact ih h (Or.inr ⟨x', hmem, hex⟩)

theorem mergeIntersectingCells_ne {latG lngG : List α}
    {g : List (List Bool)} {bs : List (LLBounds α) × List (LLBounds α)}
    (h : mergeIntersectingCells latG lngG g = .ok bs)
    (hm : ∃ x y : ℤ, 0 ≤ x ∧ x < (g.length : ℤ) ∧ 0 ≤ y ∧
      y.toNat < cLen g 0 ∧ gridGet g x y = true) :
    bs.1 ≠ [] ∧ bs.2 ≠ [] := by
  unfold mergeIntersectingCells at h
  split at h
  · cases h
  · next col0 hcol0 =>
    rw [bind_ok_iff] at h
    obtain ⟨bY, hY, h⟩ := h
    rw [bind_ok_iff] at h
    obtain ⟨bX, hX, h⟩ := h
    injection h with h2
    rw [← h2]
    obtain ⟨x, y, hx0, hxlt, hy0, hylt, hg⟩ := hm
    have hcl : cLen g 0 = col0.length := by
      unfold cLen
      rw [hcol0]
      rfl
    have hxmem : x.toNat ∈ List.range g.length := List.mem_range.mpr (by omega)
    have hymem : y.toNat ∈ List.range col0.length :=
      List.mem_range.mpr (by omega)
    have hgx : gridGet g ((x.toNat : ℕ) : ℤ) ((y.toNat : ℕ) : ℤ) = true := by
      rw [Int.toNat_of_nonneg hx0, Int.toNat_of_nonneg hy0]
      exact hg
    exact ⟨rowPass_ne hY (Or.inr ⟨y.toNat, hymem, x.toNat, hxmem, hgx⟩),
      colPass_ne hX (Or.inr ⟨x.toNat, hxmem, y.toNat, hymem, hgx⟩)⟩

theorem box_ne {nav : Nav α} {fuel : ℕ} {s : RBState α}
    {path : List (LatLng α)} {range : α} {s' : RBState α}
    {res : List (LLBounds α)} (h : box nav fuel s path range = .ok (s', res))
    (hpath : path ≠ []) : res ≠ [] := by
  simp only [box, bind_ok_iff] at h
  obtain ⟨r, hbg, g1, hfi, bs, hmg, h⟩ := h
  injection h with h2
  rw [Prod.mk.injEq] at h2
  obtain ⟨-, hres⟩ := h2
  rw [← hres]
  obtain ⟨hshape, hlat2⟩ := buildGrid_shape hbg
  cases path with
  | nil => exact absurd (Eq.refl _) hpath
  | cons v0 rest =>
    have hfi2 := hfi
    simp only [findIntersectingCells, bind_ok_iff] at hfi2
    obtain ⟨gm, hmk, -⟩ := hfi2
    obtain ⟨hx0, hxlt⟩ := markCell_xbound hmk
    have hlen22 : r.2.2.length = r.2.1.length := by
      rw [hshape]
      simp
    have hc0 : cLen r.2.2 0 = r.1.length := by
      rw [hshape]
      unfold cLen geti
      simp [List.getElem?_replicate_of_lt
        (show 0 < r.2.1.length by omega)]
    have hmarked := fic_marked hfi (le_of_eq hc0.symm) (by omega)
    have hne := mergeIntersectingCells_ne hmg hmarked
    split
    · exact hne.2
    · exact hne.1

/-- C10: a normal `mkBox` return on at least two valid points with positive
distance is a non-empty box sequence. -/
theorem c10_theorem (nav : Nav α) (fuel : ℕ) (s : RBState α)
    (pts : List (Option α × Option α)) (dis : α) (s' : RBState α)
    (res : List ((α × α) × (α × α))) (hlen : 2 ≤ pts.length)
    (hdis : 0 < dis) (h : mkBox nav fuel s pts dis = .ok (s', res)) :
    res ≠ [] := by
  unfold mkBox at h
  rw [if_pos hlen] at h
  rw [bind_ok_iff] at h
  obtain ⟨lls, hlls, h⟩ := h
  rw [bind_ok_iff] at h
  obtain ⟨r, hr, h⟩ := h
  injection h with h2
  rw [Prod.mk.injEq] at h2
  obtain ⟨-, hres⟩ := h2
  rw [← hres]
  have hlen2 : lls.length = pts.length := mapM_ok_length hlls
  have hlls_ne : lls ≠ [] := by
    intro hc
    rw [hc] at hlen2
    simp at hlen2
    omega
  have hne := box_ne hr hlls_ne
  rw [ne_eq, List.map_eq_nil_iff]
  exact hne

/-- C10 witness: the concrete run is non-empty. -/
theorem c10_witness : 2 ≤ ptsQ.length ∧ (0 : ℚ) < 1 ∧ RLit ≠ [] :=
  ⟨by decide, by decide,
   c10_theorem testNav 50 st0 ptsQ 1 SLit RLit (by decide) (by decide)
     mkBox_run_eval⟩

/-! ### Claim C5 -/

/-- The JavaScript remainder stays strictly between `-y` and `y` for a
positive modulus, whatever the sign of the dividend. -/
theorem jsRem_bounds {x y : ℝ} (hy : 0 < y) :
    -y < jsRem x y ∧ jsRem x y < y := by
  unfold jsRem jsTrunc
  split
  · next ht =>
    have h1 : (0 : ℝ) ≤ Int.fract (x / y) := Int.fract_nonneg _
    have h2 : Int.fract (x / y) < 1 := Int.fract_lt_one _
    have he : x - y * (⌊x / y⌋ : ℝ) = y * Int.fract (x / y) := by
      rw [Int.fract]
      field_simp
    rw [he]
    constructor
    · nlinarith
    · nlinarith
  · next ht =>
    have h1 : x / y ≤ (⌈x / y⌉ : ℝ) := Int.le_ceil _
    have h2 : (⌈x / y⌉ : ℝ) < x / y + 1 := Int.ceil_lt_add_one _
    have he : x - y * (⌈x / y⌉ : ℝ) = y * (x / y - ⌈x / y⌉) := by
      field_simp
    rw [he]
    constructor
    · nlinarith
    · nlinarith

/-- The final longitude normalization of `rhumbDestinationPoint` lands in
`(-540°, 180°)` degrees, whatever the pre-normalization value. -/
theorem toDeg_jsRem_bounds (A : ℝ) :
    -540 < toDeg (jsRem A (2 * Real.pi) - Real.pi) ∧
    toDeg (jsRem A (2 * Real.pi) - Real.pi) < 180 := by
  have hpi := Real.pi_pos
  obtain ⟨hl, hu⟩ := jsRem_bounds (x := A) (y := 2 * Real.pi) (by linarith)
  unfold toDeg
  constructor
  · have h1 : -(3 * Real.pi) * 180 / Real.pi = -540 := by
      field_simp
      ring
    have h2 : -(3 * Real.pi) < jsRem A (2 * Real.pi) - Real.pi := by linarith
    calc (-540 : ℝ) = -(3 * Real.pi) * 180 / Real.pi := h1.symm
      _ < (jsRem A (2 * Real.pi) - Real.pi) * 180 / Real.pi := by gcongr
  · have h1 : Real.pi * 180 / Real.pi = 180 := by
      field_simp
    have h2 : jsRem A (2 * Real.pi) - Real.pi < Real.pi := by linarith
    calc (jsRem A (2 * Real.pi) - Real.pi) * 180 / Real.pi
        < Real.pi * 180 / Real.pi := by gcongr
      _ = 180 := h1

/-- C5 amended: the longitude returned by `rhumbDestinationPoint` lies in
the open interval `(-540°, 180°)`.  The claimed `(-180°, 180°]` is false:
the JavaScript `%` is a truncating remainder, so for a nonnegative
pre-normalization value the result lies in `[-180°, 180°)` (the endpoint
`-180` is attained, see the counterexample) and for a negative one it can
fall as low as just above `-540°`. -/
theorem c5_theorem (p : LatLng ℝ) (brng dist : ℝ) :
    -540 < (rhumbDestinationPoint p brng dist).lng ∧
    (rhumbDestinationPoint p brng dist).lng < 180 := by
  simp only [rhumbDestinationPoint]
  exact toDeg_jsRem_bounds _

/-- C5 counterexample: travelling due west (bearing 270°) from latitude 0,
longitude -90° for a quarter of the Earth's circumference lands exactly on
longitude -180°, which is outside the claimed interval `(-180°, 180°]`. -/
theorem c5_counterexample :
    (rhumbDestinationPoint ⟨0, -90⟩ 270 (6371 * (Real.pi / 2))).lng = -180 ∧
    ¬ (-180 <
        (rhumbDestinationPoint ⟨0, -90⟩ 270 (6371 * (Real.pi / 2))).lng) := by
  have hpi := Real.pi_pos
  have h270 : toRad 270 = Real.pi + Real.pi / 2 := by
    unfold toRad
    ring
  have hcos : Real.cos (toRad 270) = 0 := by
    rw [h270, Real.cos_add, Real.cos_pi, Real.sin_pi, Real.cos_pi_div_two,
      Real.sin_pi_div_two]
    ring
  have hsin : Real.sin (toRad 270) = -1 := by
    rw [h270, Real.sin_add, Real.cos_pi, Real.sin_pi, Real.cos_pi_div_two,
      Real.sin_pi_div_two]
    ring
  have hd : 6371 * (Real.pi / 2) / 6371 = Real.pi / 2 :=
    mul_div_cancel_left₀ _ (by norm_num)
  have hlat1 : toRad (0 : ℝ) = 0 := by
    unfold toRad
    ring
  have hlon1 : toRad (-90 : ℝ) = -(Real.pi / 2) := by
    unfold toRad
    ring
  have hmain :
      (rhumbDestinationPoint ⟨0, -90⟩ 270 (6371 * (Real.pi / 2))).lng =
        -180 := by
    simp only [rhumbDestinationPoint]
    rw [hcos, hsin, hd, hlat1, hlon1]
    rw [if_neg (by norm_num)]
    rw [Real.cos_zero]
    have hA : -(Real.pi / 2) + Real.pi / 2 * -1 / 1 + Real.pi = 0 := by ring
    rw [hA]
    have hrem : jsRem 0 (2 * Real.pi) = 0 := by
      unfold jsRem jsTrunc
      norm_num
    rw [hrem]
    unfold toDeg
    field_simp
    ring
  exact ⟨hmain, by rw [hmain]; exact lt_irrefl _⟩

end Rboxer
